import Mathlib

/-!
# Verification of `residual-attention-network`

A shallow embedding of the repository's two source files:

* `model/basic_layers.py` — layer classes (`Layer`, `Dense`, `Conv`,
  `BatchNormalization`, `ResidualBlock`).  The Python code builds a
  TensorFlow 1.x computation graph, so each `f_prop` method is embedded as a
  graph-expression builder over the inductive type `Graph`, and TensorFlow's
  static shape rules for the operations used are embedded as `shapeOf`.
* `train.py` — the `__main__` driver: argument parsing / dataset dispatch
  (embedded as an event trace), the epoch loop with its loss-variable
  rebinding, the validation feeds, and the early-stop/checkpoint logic.

`model/utils.py` (`EarlyStopping`) and `model/residual_attention_model.py`
are referenced by `train.py` but are not part of the sources; `EarlyStopping`
is modelled from the specification where needed.
-/

namespace RAN

/-- Padding policy of `tf.nn.conv2d` (`"SAME"` or `"VALID"`). -/
inductive Padding where
  | SAME : Padding
  | VALID : Padding
deriving DecidableEq, Repr

/-- A TensorFlow graph node, as built by the Python layer classes.
`var` stands for a `tf.Variable` (identified by an allocation id and its
shape); the remaining constructors are the graph operations that
`basic_layers.py` uses. -/
inductive Graph where
  | placeholder (shape : List Nat) : Graph
  | var (id : Nat) (shape : List Nat) : Graph
  | matmul (a b : Graph) : Graph
  | add (a b : Graph) : Graph
  | softmax (x : Graph) : Graph
  | conv2d (x w : Graph) (strides : List Nat) (padding : Padding) : Graph
  | momentsMean (x : Graph) (axes : List Nat) : Graph
  | momentsVar (x : Graph) (axes : List Nat) : Graph
  | batchNorm (x mean variance beta gamma : Graph) (eps : ℚ) (scale : Bool) : Graph
  | relu (x : Graph) : Graph
deriving DecidableEq, Repr

/-- `Layer.weight_variable(shape)`: a fresh `tf.Variable` of the given shape
(truncated-normal initialised in the source; initialisation values are not
part of the graph structure). -/
def weight_variable (id : Nat) (shape : List Nat) : Graph :=
  Graph.var id shape

/-- `class Conv(Layer)` from `model/basic_layers.py`: owns a filter weight
`W`, a bias `b`, a stride vector and a padding policy. -/
structure Conv where
  W : Graph
  b : Graph
  strides : List Nat
  padding : Padding
deriving DecidableEq, Repr

/-- `Conv.__init__(shape, strides, padding)`: `W` is a `weight_variable` of
the filter shape, `b` is a zero `tf.Variable` of shape `[shape[3]]`.
The source's default arguments are `strides=[1, 2, 2, 1]`, `padding="SAME"`;
callers in `ResidualBlock` always pass `strides` explicitly. -/
def Conv.make (shape : List Nat) (strides : List Nat) (padding : Padding)
    (wId bId : Nat) : Conv :=
  { W := weight_variable wId shape
    b := Graph.var bId [shape.getD 3 0]
    strides := strides
    padding := padding }

/-- `Conv.f_prop(x)`: `conv = tf.nn.conv2d(x, filter=self.W,
strides=self.strides, padding=self.padding); return conv`.
Note the bias `b` is not used. -/
def Conv.f_prop (c : Conv) (x : Graph) : Graph :=
  Graph.conv2d x c.W c.strides c.padding

/-- `class BatchNormalization(Layer)`: owns per-channel `beta` and `gamma`
variables, an epsilon and a scale flag. -/
structure BatchNormalization where
  channels : Nat
  variance_epsilon : ℚ
  scale_after_normalization : Bool
  beta : Graph
  gamma : Graph
deriving DecidableEq, Repr

/-- `BatchNormalization.__init__(channels, variance_epsilon=0.001,
scale_after_normalization=True)`: `beta = tf.Variable(zeros([channels]))`,
`gamma = weight_variable([channels])`. -/
def BatchNormalization.make (channels : Nat) (betaId gammaId : Nat) :
    BatchNormalization :=
  { channels := channels
    variance_epsilon := 1 / 1000
    scale_after_normalization := true
    beta := Graph.var betaId [channels]
    gamma := weight_variable gammaId [channels] }

/-- `BatchNormalization.f_prop(x)`: `mean, var = tf.nn.moments(x, axes=[0,1,2])`,
then `tf.nn.batch_norm_with_global_normalization(x, mean, var, beta, gamma,
variance_epsilon, scale_after_normalization)`, then `tf.nn.relu`. -/
def BatchNormalization.f_prop (bn : BatchNormalization) (x : Graph) : Graph :=
  Graph.relu
    (Graph.batchNorm x (Graph.momentsMean x [0, 1, 2]) (Graph.momentsVar x [0, 1, 2])
      bn.beta bn.gamma bn.variance_epsilon bn.scale_after_normalization)

/-- `class Layer(object)`: a fully-connected layer with weight `W` and
bias `b`. -/
structure Layer where
  W : Graph
  b : Graph
deriving DecidableEq, Repr

/-- `Layer.__init__(shape)`: `W = weight_variable(shape)`,
`b = tf.Variable(zeros([shape[1]]))`. -/
def Layer.make (shape : List Nat) (wId bId : Nat) : Layer :=
  { W := weight_variable wId shape
    b := Graph.var bId [shape.getD 1 0] }

/-- `Layer.f_prop(x)`: `tf.matmul(x, W) + b` — unlike `Conv.f_prop`,
the bias is added here. -/
def Layer.f_prop (l : Layer) (x : Graph) : Graph :=
  Graph.add (Graph.matmul x l.W) l.b

/-- `class Dense(Layer)`: a `Layer` plus an activation function applied to
the affine transform (default `tf.nn.softmax`). -/
structure Dense where
  W : Graph
  b : Graph
  function : Graph → Graph

/-- `Dense.f_prop(x)`: `function(tf.matmul(x, W) + b)`. -/
def Dense.f_prop (d : Dense) (x : Graph) : Graph :=
  d.function (Graph.add (Graph.matmul x d.W) d.b)

/-- `class ResidualBlock(object)` from `model/basic_layers.py`. -/
structure ResidualBlock where
  input_channels : Nat
  output_channels : Nat
  stride : Nat
  batch_normalization : BatchNormalization
  conv1 : Conv
  batch_normalization_2 : BatchNormalization
  conv2 : Conv
  _conv : Conv
deriving DecidableEq, Repr

/-- `ResidualBlock.__init__(input_channels, output_channels=None, stride=1)`:
`output_channels` defaults to `input_channels`;
`conv1 = Conv([3,3,in,out], strides=[1,1,1,1])`,
`conv2 = Conv([3,3,out,out], strides=[1,stride,stride,1])`,
`_conv = Conv([1,1,in,out], strides=[1,stride,stride,1])`.
Variable allocation ids are assigned in source order. -/
def ResidualBlock.make (input_channels : Nat) (output_channels : Option Nat)
    (stride : Nat) : ResidualBlock :=
  let out : Nat :=
    match output_channels with
    | some oc => oc
    | none => input_channels
  { input_channels := input_channels
    output_channels := out
    stride := stride
    batch_normalization := BatchNormalization.make input_channels 0 1
    conv1 := Conv.make [3, 3, input_channels, out] [1, 1, 1, 1] Padding.SAME 2 3
    batch_normalization_2 := BatchNormalization.make out 4 5
    conv2 := Conv.make [3, 3, out, out] [1, stride, stride, 1] Padding.SAME 6 7
    _conv := Conv.make [1, 1, input_channels, out] [1, stride, stride, 1] Padding.SAME 8 9 }

/-- `ResidualBlock.f_prop(x)`: two BatchNorm→Conv stages, then the skip
path (`_conv` projection when `input_channels != output_channels or
stride != 1`, the raw input otherwise), summed element-wise. -/
def ResidualBlock.f_prop (rb : ResidualBlock) (x : Graph) : Graph :=
  let batch_normed_output := rb.batch_normalization.f_prop x
  let output_conv1 := rb.conv1.f_prop batch_normed_output
  let batch_normed_output_2 := rb.batch_normalization_2.f_prop output_conv1
  let output_conv2 := rb.conv2.f_prop batch_normed_output_2
  let input_layer :=
    if rb.input_channels ≠ rb.output_channels ∨ rb.stride ≠ 1 then
      rb._conv.f_prop x
    else
      x
  Graph.add output_conv2 input_layer

/-- The main (non-skip) path of `ResidualBlock.f_prop`:
BN+ReLU → conv1 → BN+ReLU → conv2. -/
def resMain (rb : ResidualBlock) (x : Graph) : Graph :=
  rb.conv2.f_prop (rb.batch_normalization_2.f_prop (rb.conv1.f_prop (rb.batch_normalization.f_prop x)))

/-! ## TensorFlow static shape rules

Shapes of the graph operations used by `basic_layers.py`, following the
TensorFlow documentation: `conv2d` with `"SAME"` padding produces spatial
size `⌈n / stride⌉`, with `"VALID"` padding `⌈(n - k + 1) / stride⌉`;
`tf.nn.moments` over axes `[0,1,2]` of an NHWC tensor yields a `[C]`
tensor; `batch_norm_with_global_normalization` requires a 4-D input and
`[C]`-shaped statistics and parameters; `+` follows broadcasting. -/

/-- Output spatial extent of a convolution along one axis. -/
def convOutDim (pad : Padding) (n k s : Nat) : Option Nat :=
  if s = 0 then none
  else
    match pad with
    | Padding.SAME => some ((n + s - 1) / s)
    | Padding.VALID => if k ≤ n then some ((n - k) / s + 1) else none

/-- Broadcasting of two shapes written least-significant dimension first:
dimensions are matched pairwise (equal, or one of them 1), and the longer
shape's extra leading dimensions pass through. -/
def broadcastDims : List Nat → List Nat → Option (List Nat)
  | [], s => some s
  | s, [] => some s
  | a :: as_, b :: bs =>
    match broadcastDims as_ bs with
    | none => none
    | some r =>
      if a = b then some (a :: r)
      else if a = 1 then some (b :: r)
      else if b = 1 then some (a :: r)
      else none

/-- NumPy/TensorFlow broadcasting of two shapes, aligning from the right. -/
def broadcastShape (a b : List Nat) : Option (List Nat) :=
  (broadcastDims a.reverse b.reverse).map List.reverse

/-- Static shape of a graph node (`none` when TensorFlow would reject the
operation at graph-construction time). -/
def shapeOf : Graph → Option (List Nat)
  | Graph.placeholder shape => some shape
  | Graph.var _ shape => some shape
  | Graph.matmul a b => do
    let sa ← shapeOf a
    let sb ← shapeOf b
    match sa, sb with
    | [n, k], [k', m] => if k = k' then some [n, m] else none
    | _, _ => none
  | Graph.add a b => do
    let sa ← shapeOf a
    let sb ← shapeOf b
    broadcastShape sa sb
  | Graph.softmax x => shapeOf x
  | Graph.conv2d x w strides pad => do
    let sx ← shapeOf x
    let sw ← shapeOf w
    match sx, sw, strides with
    | [n, h, wd, cin], [kh, kw, cin', cout], [1, sh, sw', 1] =>
      if cin = cin' then do
        let oh ← convOutDim pad h kh sh
        let ow ← convOutDim pad wd kw sw'
        some [n, oh, ow, cout]
      else none
    | _, _, _ => none
  | Graph.momentsMean x axes => do
    let sx ← shapeOf x
    match sx, axes with
    | [_, _, _, c], [0, 1, 2] => some [c]
    | _, _ => none
  | Graph.momentsVar x axes => do
    let sx ← shapeOf x
    match sx, axes with
    | [_, _, _, c], [0, 1, 2] => some [c]
    | _, _ => none
  | Graph.batchNorm x mean variance beta gamma _ _ => do
    let sx ← shapeOf x
    let sm ← shapeOf mean
    let sv ← shapeOf variance
    let sb ← shapeOf beta
    let sg ← shapeOf gamma
    match sx with
    | [_, _, _, c] =>
      if sm = [c] ∧ sv = [c] ∧ sb = [c] ∧ sg = [c] then some sx else none
    | _ => none
  | Graph.relu x => shapeOf x

/-! ## `train.py`: constants, argument parsing and dataset dispatch -/

/-- `BATCH_SIZE = 64`. -/
def BATCH_SIZE : Nat := 64

/-- `NUM_EPOCHS = 100`. -/
def NUM_EPOCHS : Nat := 100

/-- `SAVE_PATH = "~/residual-attention-network/trained_models/model.ckpt"`. -/
def SAVE_PATH : String := "~/residual-attention-network/trained_models/model.ckpt"

/-- The `ValueError` message used by both `raise` statements in
`train.py`'s `__main__` block. -/
def errMsg : String :=
  "Now you can use only \x27CIFER-10\x27 for training. Please specify valid DataSet \x7b\x27CIFER-10\x27\x7d or write build_model method in ResidualAttentionModel class by yourself."

/-- An observable event of `train.py`'s `__main__` prologue: loading the
CIFAR data, constructing the model graph, or raising a `ValueError`
(which terminates the process, so it is always the last event). -/
inductive Ev where
  | loadCifarData : Ev
  | buildModelGraph (target : String) : Ev
  | valueError (msg : String) : Ev
deriving DecidableEq, Repr

/-- The dataset dispatch of `train.py` (the `if target_dataset == "CIFER-10"
... elif ... == "ImageNet" ... else raise` chain followed by
`model.build_model(target=target_dataset)`), as the trace of events it
produces for a given `target_dataset`. -/
def dispatchTrace (target_dataset : String) : List Ev :=
  if target_dataset = "CIFER-10" then
    [Ev.loadCifarData, Ev.buildModelGraph target_dataset]
  else if target_dataset = "ImageNet" then
    -- the `elif` branch only prints a TODO; no data is loaded,
    -- and execution continues to `model.build_model`.
    [Ev.buildModelGraph target_dataset]
  else
    [Ev.valueError errMsg]

/-- The `__main__` prologue of `train.py` on a given `sys.argv`:
when exactly one argument is passed it becomes `target_dataset`, and if it
equals `"CIFER-10"` a `ValueError` is raised at once; otherwise (including
no argument) `target_dataset` defaults to `"CIFER-10"` and control falls
through to the dataset dispatch. -/
def mainTrace (argv : List String) : List Ev :=
  if argv.length = 2 then
    let target_dataset := (argv.get? 1).getD ""
    if target_dataset = "CIFER-10" then
      [Ev.valueError errMsg]
    else
      dispatchTrace target_dataset
  else
    dispatchTrace "CIFER-10"

/-- Whether an event is a raised `ValueError`. -/
def Ev.isError : Ev → Bool
  | Ev.valueError _ => true
  | _ => false

/-! ## `train.py`: the epoch loop's loss-variable rebinding

In the training loop the statement `_, loss = sess.run([train, loss], ...)`
rebinds the Python name `loss` — initially bound to the loss graph node —
to the numeric array fetched by `sess.run`.  The validation loop then
fetches `sess.run([valid, loss], ...)` with whatever `loss` is bound to.
We track the value bound to `loss` and the argument passed to each
`sess.run` fetch. -/

/-- A Python value bound to the name `loss`: either the loss tensor
(a graph node) or a numeric result previously fetched from `sess.run`
(abstracted by its numeric value). -/
inductive PyVal where
  | tensor (g : Graph) : PyVal
  | ndarray (v : ℚ) : PyVal
deriving DecidableEq, Repr

/-- One iteration of the training loop, acting on (fetch arguments so far,
current binding of `loss`): iteration `i` passes the current binding to
`sess.run([train, loss], ...)` and rebinds `loss` to the fetched array
(whose numeric value we abstract as `fetchResult i`). -/
def trainStep (fetchResult : Nat → ℚ) (s : List PyVal × PyVal) (i : Nat) :
    List PyVal × PyVal :=
  (s.1 ++ [s.2], PyVal.ndarray (fetchResult i))

/-- The training half of an epoch: `for i in range(n_batches): _, loss =
sess.run([train, loss], ...)`, starting from binding `loss0`.  Returns the
list of per-iteration fetch arguments and the final binding of `loss`. -/
def trainPhase (fetchResult : Nat → ℚ) (loss0 : PyVal) (n_batches : Nat) :
    List PyVal × PyVal :=
  (List.range n_batches).foldl (trainStep fetchResult) ([], loss0)

/-- The validation half of an epoch: `for i in range(n_batches): pred,
valid_cost = sess.run([valid, loss], feed_dict={x: valid_X, t: valid_y})`.
The name `loss` is not rebound here, so every iteration passes the same
binding as its fetch argument. -/
def validLossFetches (n_batches : Nat) (loss : PyVal) : List PyVal :=
  (List.range n_batches).map (fun _i => loss)

/-! ## `train.py`: the validation feeds -/

/-- Python slicing `l[s:e]`. -/
def pySlice {γ : Type} (l : List γ) (s e : Nat) : List γ :=
  (l.take e).drop s

/-- `n_batches = train_X.shape[0] // BATCH_SIZE`. -/
def n_batches {γ : Type} (train_X : List γ) : Nat :=
  train_X.length / BATCH_SIZE

/-- Feeds of the training loop: iteration `i` feeds the mini-batch slice
`train_X[start:end], train_y[start:end]` with `start = i * BATCH_SIZE`,
`end = start + BATCH_SIZE`. -/
def trainFeeds {γ δ : Type} (nb : Nat) (train_X : List γ) (train_y : List δ) :
    List (List γ × List δ) :=
  (List.range nb).map (fun i =>
    let start := i * BATCH_SIZE
    let stop := start + BATCH_SIZE
    (pySlice train_X start stop, pySlice train_y start stop))

/-- Feeds of the validation loop: iteration `i` computes `start = i *
BATCH_SIZE` and `end = start + BATCH_SIZE` but feeds
`feed_dict={x: valid_X, t: valid_y}` — the whole validation set; the
computed indices do not appear in the feed. -/
def validFeeds {γ δ : Type} (nb : Nat) (valid_X : List γ) (valid_y : List δ) :
    List (List γ × List δ) :=
  (List.range nb).map (fun i =>
    let start := i * BATCH_SIZE
    let stop := start + BATCH_SIZE
    let _ := start
    let _ := stop
    (valid_X, valid_y))

/-! ## Early stopping and the checkpoint write

`EarlyStopping` lives in `model/utils.py`, which is not among the sources;
it is modelled from the specification.  The epoch loop around it is from
`train.py` and is kept generic in the early-stopping state and check
function. -/

/-- Modelled from the spec: `EarlyStopping` (from the absent
`model/utils.py`) keeps "a monotonic counter of consecutive non-improving
validation losses and the best loss seen so far", with a configured
patience threshold. -/
structure EarlyStopping where
  patience : Nat
  counter : Nat
  best : Option ℚ
deriving DecidableEq, Repr

/-- Modelled from the spec: the `EarlyStopping` state "created at training
start" — no loss seen yet, counter at zero. -/
def EarlyStopping.start (patience : Nat) : EarlyStopping :=
  { patience := patience, counter := 0, best := none }

/-- Modelled from the spec: `EarlyStopping.check(loss)` (from the absent
`model/utils.py`).  An improvement on the best loss seen resets the
counter and updates the best; a non-improvement increments the counter,
and the check triggers exactly when the counter reaches the patience
(per the spec's scenario: losses `[1.0, 0.9, 0.95, 0.97, 1.0]` with
patience 3 trigger at the 5th observation).  Returns the triggering
decision together with the updated state. -/
def EarlyStopping.check (es : EarlyStopping) (loss : ℚ) : Bool × EarlyStopping :=
  match es.best with
  | none => (false, { es with best := some loss, counter := 0 })
  | some b =>
    if loss < b then
      (false, { es with best := some loss, counter := 0 })
    else
      (decide (es.patience ≤ es.counter + 1), { es with counter := es.counter + 1 })

/-- The index (0-based) of the first observation at which a stateful check
returns `true`, scanning a list of observations; generic in the state. -/
def firstTriggerFrom {σ : Type} (check : σ → ℚ → Bool × σ) : σ → List ℚ → Option Nat
  | _, [] => none
  | s, c :: cs =>
    let r := check s c
    if r.1 then some 0 else (firstTriggerFrom check r.2 cs).map (· + 1)

/-- The epoch loop of `train.py`, abstracted to its early-stop/checkpoint
effects: for `epoch` in `[e, numEpochs)`, obtain the epoch's mean
validation cost (abstracted as `validCost epoch`), run the early-stopping
check, and on a trigger save a checkpoint `(SAVE_PATH, epoch)` (the
`saver.save(sess, SAVE_PATH, global_step=epoch)` call) and `break`.
Returns the list of checkpoint writes performed, in order. -/
def epochLoop {σ : Type} (check : σ → ℚ → Bool × σ) (validCost : Nat → ℚ)
    (numEpochs : Nat) : Nat → σ → List (String × Nat)
  | e, s =>
    if h : e < numEpochs then
      let r := check s (validCost e)
      if r.1 then [(SAVE_PATH, e)]
      else epochLoop check validCost numEpochs (e + 1) r.2
    else []
termination_by e _ => numEpochs - e
decreasing_by simp_wf; omega

/-- The early-stopping state after processing a list of mean validation
losses, starting from `EarlyStopping.start p`. -/
def runES (p : Nat) (l : List ℚ) : EarlyStopping :=
  l.foldl (fun es a => (es.check a).2) (EarlyStopping.start p)

/-- The minimum loss seen so far over a list of observations
(`none` for the empty list). -/
def runningMin (l : List ℚ) : Option ℚ :=
  l.foldl (fun acc a =>
    match acc with
    | none => some a
    | some m => some (min m a)) none

/-- Whether observation `j` of the loss list `l` fails to improve on the
best (minimum) loss among the observations before it.  The first
observation (j = 0) never counts as a non-improvement: it sets the
initial best. -/
def failsToImproveB (l : List ℚ) (j : Nat) : Bool :=
  match j, runningMin (l.take j) with
  | 0, _ => false
  | _, none => false
  | j, some m => !(decide (l.getD j 0 < m))

/-- Length of the maximal run of consecutive non-improving observations
ending at index `j`. -/
def runEnd (l : List ℚ) : Nat → Nat
  | 0 => 0
  | j + 1 => if failsToImproveB l (j + 1) then runEnd l j + 1 else 0

/-- Structural depth of a graph node (used to separate a node from its own
strict subterms). -/
def graphDepth : Graph → Nat
  | .placeholder _ => 0
  | .var _ _ => 0
  | .matmul a b => graphDepth a + graphDepth b + 1
  | .add a b => graphDepth a + graphDepth b + 1
  | .softmax x => graphDepth x + 1
  | .conv2d x w _ _ => graphDepth x + graphDepth w + 1
  | .momentsMean x _ => graphDepth x + 1
  | .momentsVar x _ => graphDepth x + 1
  | .batchNorm x m v b g _ _ =>
    graphDepth x + graphDepth m + graphDepth v + graphDepth b + graphDepth g + 1
  | .relu x => graphDepth x + 1

/-! ## Helper lemmas -/

lemma conv2d_ne (x w : Graph) (s : List Nat) (p : Padding) : Graph.conv2d x w s p ≠ x := by
  intro h
  have h2 := congrArg graphDepth h
  simp [graphDepth] at h2
  omega

lemma broadcastDims_self : ∀ s : List Nat, broadcastDims s s = some s := by
  intro s
  induction s with
  | nil => rfl
  | cons a as ih => simp [broadcastDims, ih]

lemma broadcastShape_self (s : List Nat) : broadcastShape s s = some s := by
  simp [broadcastShape, broadcastDims_self]

lemma bn_shape (c bId gId n h w : Nat) (x : Graph) (hx : shapeOf x = some [n, h, w, c]) :
    shapeOf ((BatchNormalization.make c bId gId).f_prop x) = some [n, h, w, c] := by
  simp [BatchNormalization.make, BatchNormalization.f_prop, weight_variable, shapeOf, hx]

lemma conv_shape (sh sw : Nat) (hsh : sh ≠ 0) (hsw : sw ≠ 0)
    (kh kw cin cout wId bId n h w : Nat) (x : Graph)
    (hx : shapeOf x = some [n, h, w, cin]) :
    shapeOf ((Conv.make [kh, kw, cin, cout] [1, sh, sw, 1] Padding.SAME wId bId).f_prop x)
      = some [n, (h + sh - 1) / sh, (w + sw - 1) / sw, cout] := by
  simp [Conv.make, Conv.f_prop, weight_variable, shapeOf, convOutDim, hx, hsh, hsw]

lemma add_shape (a b : Graph) (sh : List Nat)
    (ha : shapeOf a = some sh) (hb : shapeOf b = some sh) :
    shapeOf (Graph.add a b) = some sh := by
  simp [shapeOf, ha, hb, broadcastShape_self]

lemma ceil_div_of_dvd (s h : Nat) (hs : 0 < s) (hd : s ∣ h) :
    (h + s - 1) / s = h / s := by
  obtain ⟨q, rfl⟩ := hd
  have h1 : s * q + s - 1 = s * q + (s - 1) := by omega
  rw [h1, Nat.mul_add_div hs, Nat.div_eq_of_lt (by omega : s - 1 < s),
    Nat.mul_div_cancel_left q hs]
  omega

lemma trainPhase_succ (f : Nat → ℚ) (l0 : PyVal) (n : Nat) :
    trainPhase f l0 (n + 1) =
      ((trainPhase f l0 n).1 ++ [(trainPhase f l0 n).2], PyVal.ndarray (f n)) := by
  simp [trainPhase, List.range_succ, trainStep]

lemma trainPhase_spec (f : Nat → ℚ) (l0 : PyVal) :
    ∀ n, 0 < n → trainPhase f l0 n =
      (l0 :: (List.range (n - 1)).map (fun i => PyVal.ndarray (f i)),
        PyVal.ndarray (f (n - 1))) := by
  intro n
  induction n with
  | zero => omega
  | succ m ih =>
    intro _
    rcases Nat.eq_zero_or_pos m with hm | hm
    · subst hm
      simp [trainPhase, trainStep, List.range_succ]
    · obtain ⟨k, rfl⟩ : ∃ k, m = k + 1 := ⟨m - 1, by omega⟩
      rw [trainPhase_succ, ih hm]
      simp [List.range_succ]

lemma runningMin_go (xs : List ℚ) : ∀ m : ℚ,
    xs.foldl (fun acc a =>
      match acc with
      | none => some a
      | some b => some (min b a)) (some m) = some (xs.foldl min m) := by
  induction xs with
  | nil => intro m; rfl
  | cons y ys ih => intro m; simpa using ih (min m y)

lemma runningMin_cons (x : ℚ) (xs : List ℚ) :
    runningMin (x :: xs) = some (xs.foldl min x) := by
  simpa [runningMin] using runningMin_go xs x

lemma runningMin_append (l : List ℚ) (a : ℚ) :
    runningMin (l ++ [a]) =
      some (match runningMin l with
            | none => a
            | some m => min m a) := by
  cases l with
  | nil => rfl
  | cons x xs =>
    rw [List.cons_append, runningMin_cons, runningMin_cons]
    simp [List.foldl_append]

lemma failsToImproveB_zero (l : List ℚ) : failsToImproveB l 0 = false := rfl

lemma failsToImproveB_succ (l : List ℚ) (j : Nat) (m : ℚ)
    (h : runningMin (l.take (j + 1)) = some m) :
    failsToImproveB l (j + 1) = !(decide (l.getD (j + 1) 0 < m)) := by
  simp [failsToImproveB, h]

lemma failsToImproveB_append (l : List ℚ) (a : ℚ) (j : Nat) (hj : j < l.length) :
    failsToImproveB (l ++ [a]) j = failsToImproveB l j := by
  cases j with
  | zero => rfl
  | succ k =>
    have ht : (l ++ [a]).take (k + 1) = l.take (k + 1) := by
      rw [List.take_append_eq_append_take]
      have h0 : k + 1 - l.length = 0 := by omega
      simp [h0]
    have hg : (l ++ [a]).getD (k + 1) 0 = l.getD (k + 1) 0 :=
      List.getD_append l [a] 0 (k + 1) hj
    cases hrm : runningMin (l.take (k + 1)) with
    | none =>
      have hrm2 : runningMin ((l ++ [a]).take (k + 1)) = none := by rw [ht, hrm]
      simp [failsToImproveB, hrm, hrm2]
    | some m =>
      have hrm2 : runningMin ((l ++ [a]).take (k + 1)) = some m := by rw [ht, hrm]
      rw [failsToImproveB_succ l k m hrm, failsToImproveB_succ (l ++ [a]) k m hrm2, hg]

lemma failsToImproveB_last (l : List ℚ) (a m : ℚ) (h : runningMin l = some m) :
    failsToImproveB (l ++ [a]) l.length = !(decide (a < m)) := by
  have hl : l ≠ [] := by
    intro he
    rw [he] at h
    simp [runningMin] at h
  obtain ⟨k, hk⟩ : ∃ k, l.length = k + 1 :=
    ⟨l.length - 1, by have := List.length_pos.mpr hl; omega⟩
  have ht : runningMin ((l ++ [a]).take (k + 1)) = some m := by
    rw [← hk, List.take_left, h]
  have hg : (l ++ [a]).getD (k + 1) 0 = a := by
    rw [← hk, List.getD_append_right l [a] 0 l.length (le_refl _)]
    simp
  rw [hk, failsToImproveB_succ (l ++ [a]) k m ht, hg]

lemma runEnd_append (l : List ℚ) (a : ℚ) : ∀ j, j < l.length →
    runEnd (l ++ [a]) j = runEnd l j := by
  intro j
  induction j with
  | zero => intro _; rfl
  | succ k ih =>
    intro hj
    simp [runEnd, failsToImproveB_append l a (k + 1) hj, ih (by omega)]

lemma runES_append (p : Nat) (l : List ℚ) (a : ℚ) :
    runES p (l ++ [a]) = ((runES p l).check a).2 := by
  simp [runES, List.foldl_append]

lemma runES_spec (p : Nat) : ∀ l : List ℚ,
    runES p l =
      { patience := p, counter := runEnd l (l.length - 1), best := runningMin l } := by
  intro l
  induction l using List.reverseRecOn with
  | nil => rfl
  | append_singleton l a ih =>
    rw [runES_append, ih]
    cases hl : l with
    | nil =>
      subst hl
      simp [EarlyStopping.check, runEnd, runningMin]
    | cons x xs =>
      rw [← hl]
      have hm : runningMin l = some (xs.foldl min x) := by rw [hl, runningMin_cons]
      set m := xs.foldl min x with hmdef
      have hlen : l.length = xs.length + 1 := by rw [hl]; simp
      have hlast := failsToImproveB_last l a m hm
      have hrmapp := runningMin_append l a
      rw [hm] at hrmapp
      by_cases hlt : a < m
      · have hfail : failsToImproveB (l ++ [a]) (xs.length + 1) = false := by
          rw [← hlen, hlast]
          simp [hlt]
        have hcnt : runEnd (l ++ [a]) l.length = 0 := by
          rw [hlen, runEnd, hfail]
          simp
        simp only [EarlyStopping.check, hm]
        rw [if_pos hlt]
        simp [hcnt, hrmapp, min_eq_right hlt.le]
      · have hfail : failsToImproveB (l ++ [a]) (xs.length + 1) = true := by
          rw [← hlen, hlast]
          simp [hlt]
        have hcnt : runEnd (l ++ [a]) l.length = runEnd l xs.length + 1 := by
          rw [hlen, runEnd, hfail]
          simp [runEnd_append l a xs.length (by omega)]
        have hl1 : l.length - 1 = xs.length := by omega
        simp only [EarlyStopping.check, hm]
        rw [if_neg hlt]
        simp [hcnt, hrmapp, min_eq_left (not_lt.mp hlt), hl1]

lemma runEnd_ge_iff (l : List ℚ) : ∀ (j p : Nat), 0 < p →
    (p ≤ runEnd l j ↔ ∀ i, i ≤ j → j < i + p → failsToImproveB l i = true) := by
  intro j
  induction j with
  | zero =>
    intro p hp
    constructor
    · intro h
      exfalso
      simp [runEnd] at h
      omega
    · intro h
      have h0 := h 0 (le_refl 0) (by omega)
      rw [failsToImproveB_zero] at h0
      exact absurd h0 (by simp)
  | succ j ih =>
    intro p hp
    cases hf : failsToImproveB l (j + 1) with
    | false =>
      constructor
      · intro h
        exfalso
        simp [runEnd, hf] at h
        omega
      · intro h
        have := h (j + 1) (le_refl _) (by omega)
        rw [hf] at this
        exact absurd this (by simp)
    | true =>
      have hr : runEnd l (j + 1) = runEnd l j + 1 := by
        rw [runEnd, hf]
        simp
      rcases eq_or_lt_of_le hp with hp1 | hp2
      · rw [← hp1]
        constructor
        · intro _ i hi1 hi2
          have : i = j + 1 := by omega
          rw [this, hf]
        · intro _
          omega
      · obtain ⟨q, rfl⟩ : ∃ q, p = q + 2 := ⟨p - 2, by omega⟩
        rw [hr]
        have hih := ih (q + 1) (by omega)
        constructor
        · intro h i hi1 hi2
          rcases Nat.lt_or_ge i (j + 1) with hlt | hge
          · exact hih.mp (by omega) i (by omega) (by omega)
          · have : i = j + 1 := by omega
            rw [this, hf]
        · intro h
          have : q + 1 ≤ runEnd l j := by
            apply hih.mpr
            intro i hi1 hi2
            exact h i (by omega) (by omega)
          omega

lemma epochLoop_spec (σ : Type) (check : σ → ℚ → Bool × σ) (validCost : Nat → ℚ)
    (N : Nat) : ∀ (fuel k : Nat) (s : σ), N - k = fuel →
    epochLoop check validCost N k s =
      (match firstTriggerFrom check s ((List.range' k (N - k)).map validCost) with
       | some j => [(SAVE_PATH, k + j)]
       | none => []) := by
  intro fuel
  induction fuel with
  | zero =>
    intro k s h
    rw [epochLoop]
    rw [dif_neg (by omega)]
    rw [h]
    rfl
  | succ f ihf =>
    intro k s h
    rw [epochLoop]
    rw [dif_pos (by omega : k < N)]
    rw [h, List.range'_succ]
    simp only [List.map_cons, firstTriggerFrom]
    cases hc : (check s (validCost k)).1 with
    | true => simp
    | false =>
      simp only [Bool.false_eq_true, if_false]
      rw [ihf (k + 1) (check s (validCost k)).2 (by omega)]
      rw [show N - (k + 1) = f from by omega]
      cases firstTriggerFrom check (check s (validCost k)).2
          ((List.range' (k + 1) f).map validCost) with
      | none => rfl
      | some j =>
        simp [Nat.add_assoc, Nat.add_comm 1 j]

/-! ## Claim theorems -/

/-- C1: `train.py`'s argument check raises the `ValueError` precisely when
the argument IS `"CIFER-10"` — the one dataset its own message calls valid
and the one the no-argument run defaults to (which loads data and builds
the graph).  This evaluates the embedded `__main__` trace at the failing
input `sys.argv = ["train.py", "CIFER-10"]` and contrasts it with the
no-argument invocation. -/
theorem cifer10_argument_raises_valueerror :
    mainTrace ["train.py", "CIFER-10"] = [Ev.valueError errMsg]
      ∧ mainTrace ["train.py"] = [Ev.loadCifarData, Ev.buildModelGraph "CIFER-10"] :=
  ⟨rfl, rfl⟩

/-- C2 counterexample: the argument `"ImageNet"` does not raise a
`ValueError`; the trace contains no error event and proceeds to model
graph construction (the `elif` branch only prints a TODO). -/
theorem imagenet_argument_raises_no_error :
    mainTrace ["train.py", "ImageNet"] = [Ev.buildModelGraph "ImageNet"]
      ∧ (mainTrace ["train.py", "ImageNet"]).all (fun e => !e.isError) = true :=
  ⟨rfl, rfl⟩

/-- C2 (amended): for every command-line dataset argument other than
`"CIFER-10"` and `"ImageNet"`, the program raises the `ValueError` naming
the valid set, and the trace ends there — before any model graph
construction event. -/
theorem unsupported_dataset_raises (s : String) (h1 : s ≠ "CIFER-10")
    (h2 : s ≠ "ImageNet") :
    mainTrace ["train.py", s] = [Ev.valueError errMsg] := by
  simp [mainTrace, dispatchTrace, h1, h2]

/-- C2 witness: the spec's own example argument `"MNIST"`. -/
theorem unsupported_dataset_raises_witness :
    mainTrace ["train.py", "MNIST"] = [Ev.valueError errMsg] :=
  unsupported_dataset_raises "MNIST" (by decide) (by decide)

/-- C3: in `ResidualBlock.f_prop` the skip path is the `_conv` 1×1
projection of the input if and only if `input_channels ≠ output_channels
∨ stride ≠ 1`, and otherwise the raw input `x` itself; the projection is
never equal to the raw input as a graph node, so the two cases are
mutually exclusive. -/
theorem resblock_skip_projection_iff (rb : ResidualBlock) (x : Graph) :
    rb.f_prop x = Graph.add (resMain rb x)
        (if rb.input_channels ≠ rb.output_channels ∨ rb.stride ≠ 1 then
          rb._conv.f_prop x
        else x)
      ∧ (rb.input_channels = rb.output_channels ∧ rb.stride = 1 →
          rb.f_prop x = Graph.add (resMain rb x) x)
      ∧ (rb.input_channels ≠ rb.output_channels ∨ rb.stride ≠ 1 →
          rb.f_prop x = Graph.add (resMain rb x) (rb._conv.f_prop x))
      ∧ rb._conv.f_prop x ≠ x := by
  refine ⟨rfl, ?_, ?_, conv2d_ne x rb._conv.W rb._conv.strides rb._conv.padding⟩
  · rintro ⟨h1, h2⟩
    have hnc : ¬(rb.input_channels ≠ rb.output_channels ∨ rb.stride ≠ 1) := by
      simp [h1, h2]
    simp only [ResidualBlock.f_prop, resMain]
    rw [if_neg hnc]
  · intro hc
    simp only [ResidualBlock.f_prop, resMain]
    rw [if_pos hc]

/-- C3 witness: a channel-changing block (1 → 2 channels, stride 1)
projects its skip path. -/
theorem resblock_skip_projection_iff_witness :
    (ResidualBlock.make 1 (some 2) 1).f_prop (Graph.placeholder [1, 2, 2, 1])
      = Graph.add
          (resMain (ResidualBlock.make 1 (some 2) 1) (Graph.placeholder [1, 2, 2, 1]))
          ((ResidualBlock.make 1 (some 2) 1)._conv.f_prop (Graph.placeholder [1, 2, 2, 1])) :=
  (resblock_skip_projection_iff (ResidualBlock.make 1 (some 2) 1)
      (Graph.placeholder [1, 2, 2, 1])).2.2.1 (by decide)

/-- C4 counterexample: for an input of spatial size 5×5 and stride 2, the
residual block's output shape is `[1, 3, 3, 1]` (TensorFlow `"SAME"`
padding rounds `5 / 2` up), not `[1, 5 / 2, 5 / 2, 1] = [1, 2, 2, 1]` as
the claim's `H/stride` formula would give. -/
theorem resblock_shape_counterexample :
    shapeOf ((ResidualBlock.make 1 (some 1) 2).f_prop (Graph.placeholder [1, 5, 5, 1]))
        = some [1, 3, 3, 1]
      ∧ some [1, 3, 3, 1] ≠ some [1, 5 / 2, 5 / 2, 1] := by
  constructor
  · decide
  · decide

/-- C4 (amended): for every `(input_channels, output_channels, stride)`
with `stride > 0` and every input of shape `(N, H, W, input_channels)`,
the residual block's output shape is `(N, ⌈H/stride⌉, ⌈W/stride⌉,
output_channels)`; when `stride` divides `H` and `W` this is exactly
`(N, H/stride, W/stride, output_channels)`. -/
theorem resblock_output_shape (n h w cin cout s : Nat) (hs : 0 < s) :
    shapeOf ((ResidualBlock.make cin (some cout) s).f_prop (Graph.placeholder [n, h, w, cin]))
        = some [n, (h + s - 1) / s, (w + s - 1) / s, cout]
      ∧ (s ∣ h → s ∣ w →
          shapeOf ((ResidualBlock.make cin (some cout) s).f_prop
              (Graph.placeholder [n, h, w, cin]))
            = some [n, h / s, w / s, cout]) := by
  have hx : shapeOf (Graph.placeholder [n, h, w, cin]) = some [n, h, w, cin] := rfl
  have h0 := bn_shape cin 0 1 n h w _ hx
  have h1 := conv_shape 1 1 (by decide) (by decide) 3 3 cin cout 2 3 n h w _ h0
  have e1 : (h + 1 - 1) / 1 = h := by omega
  have e2 : (w + 1 - 1) / 1 = w := by omega
  rw [e1, e2] at h1
  have h2 := bn_shape cout 4 5 n h w _ h1
  have h3 := conv_shape s s hs.ne' hs.ne' 3 3 cout cout 6 7 n h w _ h2
  have main : shapeOf ((ResidualBlock.make cin (some cout) s).f_prop
      (Graph.placeholder [n, h, w, cin]))
      = some [n, (h + s - 1) / s, (w + s - 1) / s, cout] := by
    by_cases hc : cin ≠ cout ∨ s ≠ 1
    · have hskip := conv_shape s s hs.ne' hs.ne' 1 1 cin cout 8 9 n h w _ hx
      simp only [ResidualBlock.f_prop, ResidualBlock.make]
      rw [if_pos hc]
      exact add_shape _ _ _ h3 hskip
    · push_neg at hc
      obtain ⟨hc1, hc2⟩ := hc
      subst hc1 hc2
      simp only [ResidualBlock.f_prop, ResidualBlock.make]
      have hnc : ¬(cin ≠ cin ∨ (1 : Nat) ≠ 1) := by simp
      rw [if_neg hnc]
      rw [e1, e2] at h3
      rw [e1, e2]
      exact add_shape _ _ _ h3 hx
  refine ⟨main, fun hdh hdw => ?_⟩
  rw [main, ceil_div_of_dvd s h hs hdh, ceil_div_of_dvd s w hs hdw]

/-- C4 witness: a 3→8 channel, stride-2 block on a 4×6 input yields shape
`[2, 2, 3, 8]`. -/
theorem resblock_output_shape_witness :
    shapeOf ((ResidualBlock.make 3 (some 8) 2).f_prop (Graph.placeholder [2, 4, 6, 3]))
      = some [2, 4 / 2, 6 / 2, 8] :=
  (resblock_output_shape 2 4 6 3 8 2 (by decide)).2 (by decide) (by decide)

/-- C5: `ResidualBlock.f_prop` computes, in order, BatchNorm+ReLU of the
input, a 3×3 stride-1 convolution taking `input_channels` to
`output_channels`, BatchNorm+ReLU of that result, a 3×3 convolution with
the block's stride taking `output_channels` to `output_channels`, and
returns the element-wise sum with the (possibly projected) skip path. -/
theorem resblock_pipeline_order (i o s : Nat) (x : Graph) :
    (ResidualBlock.make i (some o) s).f_prop x =
      (let y0 := Graph.relu (Graph.batchNorm x (Graph.momentsMean x [0, 1, 2])
        (Graph.momentsVar x [0, 1, 2]) (Graph.var 0 [i]) (Graph.var 1 [i]) (1 / 1000) true)
      let y1 := Graph.conv2d y0 (Graph.var 2 [3, 3, i, o]) [1, 1, 1, 1] Padding.SAME
      let y1n := Graph.relu (Graph.batchNorm y1 (Graph.momentsMean y1 [0, 1, 2])
        (Graph.momentsVar y1 [0, 1, 2]) (Graph.var 4 [o]) (Graph.var 5 [o]) (1 / 1000) true)
      let y2 := Graph.conv2d y1n (Graph.var 6 [3, 3, o, o]) [1, s, s, 1] Padding.SAME
      let skip := if i ≠ o ∨ s ≠ 1 then
          Graph.conv2d x (Graph.var 8 [1, 1, i, o]) [1, s, s, 1] Padding.SAME
        else x
      Graph.add y2 skip) := rfl

/-- C6: early stopping triggers at an observation exactly when the last
`patience` observations (the new one included) each fail to improve on the
minimum loss seen before them; and on the spec's scenario — losses
`[1.0, 0.9, 0.95, 0.97, 1.0]` with patience 3 — the first trigger is at
the 5th observation (index 4). -/
theorem early_stopping_trigger_iff :
    (∀ (p : Nat) (l : List ℚ) (a : ℚ), 0 < p →
        (((runES p l).check a).1 = true ↔
          ∀ i, i < (l ++ [a]).length → (l ++ [a]).length < i + p + 1 →
            failsToImproveB (l ++ [a]) i = true))
      ∧ firstTriggerFrom (fun es c => es.check c) (EarlyStopping.start 3)
          [1, 9/10, 19/20, 97/100, 1] = some 4 := by
  constructor
  · intro p l a hp
    rw [runES_spec]
    cases hl : l with
    | nil =>
      subst hl
      simp only [EarlyStopping.check, runningMin]
      constructor
      · intro h
        simp at h
      · intro h
        have h0 := h 0 (by simp) (by simp; omega)
        rw [show failsToImproveB ([] ++ [a]) 0 = false from rfl] at h0
        exact absurd h0 (by simp)
    | cons x xs =>
      rw [← hl]
      have hm : runningMin l = some (xs.foldl min x) := by rw [hl, runningMin_cons]
      set m := xs.foldl min x with hmdef
      have hlen : l.length = xs.length + 1 := by rw [hl]; simp
      have hlast := failsToImproveB_last l a m hm
      by_cases hlt : a < m
      · simp only [EarlyStopping.check, hm]
        rw [if_pos hlt]
        simp only [false_iff]
        constructor
        · intro h
          simp at h
        · intro h
          have hwin := h l.length (by simp) (by simp; omega)
          rw [hlast] at hwin
          simp [hlt] at hwin
      · simp only [EarlyStopping.check, hm]
        rw [if_neg hlt]
        have hcnt : runEnd l (l.length - 1) + 1 = runEnd (l ++ [a]) l.length := by
          rw [hlen, runEnd]
          rw [← hlen, hlast]
          have hb : (!decide (a < m)) = true := by simp [hlt]
          rw [hb]
          simp only [if_true]
          rw [show l.length - 1 = xs.length from by omega]
          rw [runEnd_append l a xs.length (by omega)]
        constructor
        · intro h
          simp only [decide_eq_true_eq] at h
          rw [hcnt] at h
          have hrun := (runEnd_ge_iff (l ++ [a]) l.length p hp).mp h
          intro i hi1 hi2
          simp at hi1 hi2
          exact hrun i (by omega) (by omega)
        · intro h
          simp only [decide_eq_true_eq]
          rw [hcnt]
          apply (runEnd_ge_iff (l ++ [a]) l.length p hp).mpr
          intro i hi1 hi2
          exact h i (by simp; omega) (by simp; omega)
  · norm_num [firstTriggerFrom, EarlyStopping.check, EarlyStopping.start]

/-- C6 witness: with patience 1, best loss 2 and a non-improving loss 3,
the check triggers. -/
theorem early_stopping_trigger_iff_witness :
    ((runES 1 [2]).check 3).1 = true :=
  (early_stopping_trigger_iff.1 1 [2] 3 (by decide)).mpr (by decide)

/-- C7: the training loop's fetch `_, loss = sess.run([train, loss], ...)`
passes the loss graph node only on the very first iteration; from then on
the name `loss` is bound to the previously fetched numeric array, every
later training fetch passes that rebound value, and every validation-cost
fetch `sess.run([valid, loss], ...)` passes the rebound value — never the
original loss tensor. -/
theorem train_loop_rebinds_loss (g : Graph) (fetchResult : Nat → ℚ) (nb : Nat)
    (hn : 0 < nb) :
    (trainPhase fetchResult (PyVal.tensor g) nb).2 = PyVal.ndarray (fetchResult (nb - 1))
      ∧ ((trainPhase fetchResult (PyVal.tensor g) nb).1)[0]? = some (PyVal.tensor g)
      ∧ (∀ i, 0 < i → i < nb →
          ((trainPhase fetchResult (PyVal.tensor g) nb).1)[i]?
            = some (PyVal.ndarray (fetchResult (i - 1))))
      ∧ validLossFetches nb (trainPhase fetchResult (PyVal.tensor g) nb).2
          = List.replicate nb (PyVal.ndarray (fetchResult (nb - 1)))
      ∧ (∀ v ∈ validLossFetches nb (trainPhase fetchResult (PyVal.tensor g) nb).2,
          v ≠ PyVal.tensor g) := by
  rw [trainPhase_spec fetchResult (PyVal.tensor g) nb hn]
  refine ⟨rfl, by simp, ?_, ?_, ?_⟩
  · intro i h1 h2
    obtain ⟨k, rfl⟩ : ∃ k, i = k + 1 := ⟨i - 1, by omega⟩
    simp [List.getElem?_map, List.getElem?_range (show k < nb - 1 by omega)]
  · simp [validLossFetches, List.map_const']
  · intro v hv
    simp [validLossFetches] at hv
    rw [hv.2]
    simp

/-- C7 witness: with two batches, the binding after training is the
fetched array of the last batch, not the tensor. -/
theorem train_loop_rebinds_loss_witness :
    (trainPhase (fun i => (i : ℚ)) (PyVal.tensor (Graph.placeholder [1])) 2).2
      = PyVal.ndarray 1 :=
  (train_loop_rebinds_loss (Graph.placeholder [1]) (fun i => (i : ℚ)) 2 (by decide)).1

/-- C8: over a complete run of the epoch loop the checkpoint is written at
most once; the writes are exactly `[(SAVE_PATH, e)]` when `e` is the first
epoch within the budget at which the early-stopping check triggers
(saving is tagged with that epoch, immediately before the loop breaks),
and `[]` when the epoch budget is exhausted without a trigger.  Generic in
the early-stopping state and check function. -/
theorem checkpoint_written_once (σ : Type) (check : σ → ℚ → Bool × σ)
    (validCost : Nat → ℚ) (s0 : σ) (N : Nat) :
    epochLoop check validCost N 0 s0 =
        (match firstTriggerFrom check s0 ((List.range N).map validCost) with
         | some e => [(SAVE_PATH, e)]
         | none => [])
      ∧ (epochLoop check validCost N 0 s0).length ≤ 1 := by
  have hs := epochLoop_spec σ check validCost N N 0 s0 (by omega)
  rw [Nat.sub_zero, ← List.range_eq_range'] at hs
  simp only [Nat.zero_add] at hs
  refine ⟨hs, ?_⟩
  rw [hs]
  cases firstTriggerFrom check s0 ((List.range N).map validCost) <;> simp

/-- C9: `Conv.f_prop` returns only `tf.nn.conv2d(x, W)`; two convolution
layers agreeing on `W`, `strides` and `padding` produce identical outputs
whatever their biases, even though `Conv.__init__` does allocate the bias
variable `b` of shape `[shape[3]]`. -/
theorem conv_fprop_ignores_bias (c : Conv) (x : Graph) :
    c.f_prop x = Graph.conv2d x c.W c.strides c.padding
      ∧ (∀ c' : Conv, c'.W = c.W → c'.strides = c.strides → c'.padding = c.padding →
          c'.f_prop x = c.f_prop x)
      ∧ (∀ shape strides pad wId bId,
          (Conv.make shape strides pad wId bId).b = Graph.var bId [shape.getD 3 0]) :=
  ⟨rfl,
    fun c' h1 h2 h3 => by simp [Conv.f_prop, h1, h2, h3],
    fun _ _ _ _ _ => rfl⟩

/-- C9 witness: two convolution layers differing only in their bias
variable produce the same output graph. -/
theorem conv_fprop_ignores_bias_witness :
    (Conv.make [1, 1, 1, 1] [1, 1, 1, 1] Padding.SAME 0 5).f_prop
        (Graph.placeholder [1, 1, 1, 1])
      = (Conv.make [1, 1, 1, 1] [1, 1, 1, 1] Padding.SAME 0 9).f_prop
          (Graph.placeholder [1, 1, 1, 1]) :=
  (conv_fprop_ignores_bias (Conv.make [1, 1, 1, 1] [1, 1, 1, 1] Padding.SAME 0 9)
      (Graph.placeholder [1, 1, 1, 1])).2.1
    (Conv.make [1, 1, 1, 1] [1, 1, 1, 1] Padding.SAME 0 5) rfl rfl rfl

/-- C10: the validation loop runs `nb` iterations and every iteration's
feed is the entire validation set `(valid_X, valid_y)` — the feeds list is
`replicate nb (valid_X, valid_y)`, so the per-iteration `start`/`end`
indices never reach the feed and every iteration evaluates the same
full-set quantities. -/
theorem validation_feeds_full_set (γ δ : Type) (valid_X : List γ) (valid_y : List δ)
    (nb : Nat) :
    (validFeeds nb valid_X valid_y).length = nb
      ∧ validFeeds nb valid_X valid_y = List.replicate nb (valid_X, valid_y)
      ∧ (∀ f ∈ validFeeds nb valid_X valid_y, f = (valid_X, valid_y)) := by
  have hrep : validFeeds nb valid_X valid_y = List.replicate nb (valid_X, valid_y) := by
    simp [validFeeds, List.map_const']
  refine ⟨by simp [hrep], hrep, ?_⟩
  intro f hf
  rw [hrep] at hf
  exact List.eq_of_mem_replicate hf

/-- C10 witness: the first of two validation feeds is the full validation
set. -/
theorem validation_feeds_full_set_witness :
    (validFeeds 2 [(1 : ℚ)] [(2 : ℚ)]).getD 0 ([], [])
      = ([(1 : ℚ)], [(2 : ℚ)]) :=
  (validation_feeds_full_set ℚ ℚ [(1 : ℚ)] [(2 : ℚ)] 2).2.2
    ((validFeeds 2 [(1 : ℚ)] [(2 : ℚ)]).getD 0 ([], [])) (by decide)

end RAN
